import Mathlib

/-!
Verification of the core subsystems of the dashboard backend:

* the TTL cache (`app/utils/cache.py`),
* the WebSocket connection manager (`app/utils/websocket_manager.py`),
* the SQLite backup/restore coordinator (`app/utils/db_persistence.py`),

shallowly embedded in Lean.  Timestamps (`datetime.now()` / `time.time()`)
are modelled as rationals; the distinct clock samples taken inside one
Python method are passed explicitly as arguments (one `now` per sample site
that matters).  Effectful collaborators — the pins board, the filesystem,
WebSocket sends — are modelled by explicit outcome parameters, a raised
exception being the failing outcome.
-/

/-! ## TTL cache (`app/utils/cache.py`) -/

/-- A cached item, from the `CacheEntry` dataclass: `data`, `timestamp`
(creation time) and `expires_at`. -/
structure CacheEntry (α : Type) where
  data : α
  timestamp : ℚ
  expires_at : ℚ
deriving DecidableEq

/-- `CacheEntry.is_expired`: `datetime.now() > self.expires_at`, with the
current clock passed explicitly. -/
def CacheEntry.is_expired {α : Type} (e : CacheEntry α) (now : ℚ) : Bool :=
  decide (now > e.expires_at)

/-- The `_cache` dict of `MemoryCache`, as a total function into `Option`. -/
def MemoryCache (α : Type) := String → Option (CacheEntry α)

/-- The empty cache, from `MemoryCache.__init__`. -/
def MemoryCache.empty {α : Type} : MemoryCache α := fun _ => none

/-- `MemoryCache.get`: returns the value if present and unexpired; deletes
an expired entry as a side effect of the lookup.  Returns the answer and
the cache after the call. -/
def MemoryCache.get {α : Type} (c : MemoryCache α) (key : String) (now : ℚ) :
    Option α × MemoryCache α :=
  match c key with
  | none => (none, c)
  | some entry =>
    if entry.is_expired now then
      (none, fun k => if k = key then none else c k)
    else
      (some entry.data, c)

/-- `MemoryCache.set`: stores the value with `expires_at = now + ttl_seconds`,
overwriting any existing entry for the key. -/
def MemoryCache.set {α : Type} (c : MemoryCache α) (key : String) (value : α)
    (ttl_seconds : ℤ) (now : ℚ) : MemoryCache α :=
  fun k => if k = key then
    some ⟨value, now, now + (ttl_seconds : ℚ)⟩
  else c k

/-- `MemoryCache.invalidate`: removes the entry for the key if present. -/
def MemoryCache.invalidate {α : Type} (c : MemoryCache α) (key : String) :
    MemoryCache α :=
  fun k => if k = key then none else c k

/-- `MemoryCache.clear`: removes all entries. -/
def MemoryCache.clear {α : Type} (_c : MemoryCache α) : MemoryCache α :=
  fun _ => none

/-- The spec's entry invariant: every entry in the map has
`expiresAt > createdAt`. -/
def CacheWF {α : Type} (c : MemoryCache α) : Prop :=
  ∀ k e, c k = some e → e.timestamp < e.expires_at

/-! ## WebSocket connection manager (`app/utils/websocket_manager.py`)

Sessions are identified by naturals; `sendOk s` tells whether
`await connection.send_text(...)` on session `s` succeeds during the call
being modelled (a raised exception is `false`). -/

/-- State of `ConnectionManager`: the `active_connections` set, the
rate-limit timestamp `last_notification_time` (initially `0`) and
`min_notification_interval` (1 second in the source). -/
structure ConnectionManager where
  active_connections : Finset ℕ
  last_notification_time : ℚ
  min_notification_interval : ℚ
deriving DecidableEq

/-- One `broadcast` call at clock `now`.  Returns the manager state after
the call together with the set of sessions the message was delivered to
(those whose `send_text` succeeded).  Mirrors the source: rate-limit check,
empty-set check, timestamp update, sweep over a snapshot of the set
collecting failures, removal of the failures after the sweep. -/
def ConnectionManager.broadcast (m : ConnectionManager) (now : ℚ)
    (sendOk : ℕ → Bool) : ConnectionManager × Finset ℕ :=
  if now - m.last_notification_time < m.min_notification_interval then
    (m, ∅)
  else if m.active_connections = ∅ then
    (m, ∅)
  else
    ({ m with
        last_notification_time := now,
        active_connections :=
          m.active_connections \
            m.active_connections.filter (fun s => sendOk s = false) },
      m.active_connections.filter (fun s => sendOk s = true))

/-- `notify_data_change`: builds a change-event message with the current
timestamp and delegates to `broadcast`; the message content is irrelevant
to delivery, so the model is the delegation itself. -/
def ConnectionManager.notify_data_change (m : ConnectionManager) (now : ℚ)
    (sendOk : ℕ → Bool) : ConnectionManager × Finset ℕ :=
  m.broadcast now sendOk

/-- A sequence of `broadcast` calls, each with its own clock and send
outcomes; returns the final state and the per-call delivery sets. -/
def ConnectionManager.broadcasts (m : ConnectionManager) :
    List (ℚ × (ℕ → Bool)) → ConnectionManager × List (Finset ℕ)
  | [] => (m, [])
  | (t, ok) :: rest =>
    ((ConnectionManager.broadcasts (m.broadcast t ok).1 rest).1,
      (m.broadcast t ok).2 :: (ConnectionManager.broadcasts (m.broadcast t ok).1 rest).2)

/-! ## Backup/restore coordinator (`app/utils/db_persistence.py`)

The clock of this subsystem is measured in hours, so that
`time_since_backup >= timedelta(hours=backup_interval_hours)` is
`now - last_backup_time ≥ backup_interval_hours`. -/

/-- The mutable state of `PersistentSQLiteDB` relevant to backup decisions:
the two optional timestamps, the configured interval, whether the pins
`board` connection exists (`None` in Python is `false` here, the spec's
`Degraded` state) and whether the local snapshot file `db_path` exists. -/
structure PersistentSQLiteDB where
  backup_interval_hours : ℚ
  last_backup_time : Option ℚ
  last_data_change_time : Option ℚ
  board : Bool
  db_exists : Bool
deriving DecidableEq

/-- `mark_data_change`: records the current clock as
`last_data_change_time`. -/
def PersistentSQLiteDB.mark_data_change (s : PersistentSQLiteDB) (now : ℚ) :
    PersistentSQLiteDB :=
  { s with last_data_change_time := some now }

/-- `should_backup_now`: `False` with no recorded data change; `True` with a
data change but no backup yet; otherwise `True` iff the interval has elapsed
since the last backup and the data change is newer than it. -/
def PersistentSQLiteDB.should_backup_now (s : PersistentSQLiteDB) (now : ℚ) :
    Bool :=
  match s.last_data_change_time with
  | none => false
  | some dc =>
    match s.last_backup_time with
    | none => true
    | some lb =>
      decide (now - lb ≥ s.backup_interval_hours) && decide (dc > lb)

/-- Result of one `backup_database` call: the returned boolean, the state
after the call, and whether the upload path (the function's I/O) was
reached. -/
structure BackupResult where
  ok : Bool
  state : PersistentSQLiteDB
  uploaded : Bool
deriving DecidableEq

/-- `backup_database(force)`.  `now` is the clock at entry (used by the
`should_backup_now` check), `nowAfter` the clock read after the upload
(recorded as `last_backup_time` on success); `upload_ok` tells whether the
metadata construction and `board.pin_upload` succeed, a raised exception
being `false` (caught and turned into a `False` return). -/
def PersistentSQLiteDB.backup_database (s : PersistentSQLiteDB)
    (now nowAfter : ℚ) (force : Bool) (upload_ok : Bool) : BackupResult :=
  if !force && !(s.should_backup_now now) then
    ⟨false, s, false⟩
  else if !s.board then
    ⟨false, s, false⟩
  else if !s.db_exists then
    ⟨false, s, false⟩
  else if upload_ok then
    ⟨true, { s with last_backup_time := some nowAfter }, true⟩
  else
    ⟨false, s, true⟩

/-- `restore_database`.  `mkdir_ok` is whether the parent-directory creation
succeeds, `download` the result of `board.pin_download` (`none` models a
raised exception), `copy_ok` whether `shutil.copy2` succeeds.  Every raised
exception is caught and turned into `false`; the function is total and
never propagates an error. -/
def PersistentSQLiteDB.restore_database (s : PersistentSQLiteDB)
    (mkdir_ok : Bool) (download : Option (List String)) (copy_ok : Bool) :
    Bool :=
  if !s.board then false
  else if !mkdir_ok then false
  else match download with
    | none => false
    | some files =>
      if files.isEmpty then false
      else if copy_ok then true else false

/-! ## Theorems: TTL cache -/

/-- Claim C2: for every key `k`, value `v` and `ttl > 0`, `get k` immediately
after `set k v ttl` (no elapsed time) returns `v`; and `set` overwrites any
existing entry for the key unconditionally, whatever was stored before. -/
theorem cache_set_get_roundtrip :
    (∀ (α : Type) (c : MemoryCache α) (k : String) (v : α) (ttl : ℤ) (now : ℚ),
      0 < ttl → ((c.set k v ttl now).get k now).1 = some v)
    ∧ ∀ (α : Type) (c : MemoryCache α) (k : String) (v : α) (ttl : ℤ) (now : ℚ),
      (c.set k v ttl now) k = some ⟨v, now, now + (ttl : ℚ)⟩ := by
  constructor
  · intro α c k v ttl now httl
    have hk : (c.set k v ttl now) k = some ⟨v, now, now + (ttl : ℚ)⟩ := by
      simp [MemoryCache.set]
    have hexp : ¬ (now > now + (ttl : ℚ)) := by
      have : (0 : ℚ) < (ttl : ℚ) := by exact_mod_cast httl
      linarith
    simp [MemoryCache.get, hk, CacheEntry.is_expired, hexp]
  · intro α c k v ttl now
    simp [MemoryCache.set]

theorem cache_set_get_roundtrip_witness :
    ((MemoryCache.set (MemoryCache.empty : MemoryCache ℕ) "a" 3 5 0).get "a" 0).1
      = some 3 :=
  cache_set_get_roundtrip.1 ℕ MemoryCache.empty "a" 3 5 0 (by decide)

/-- Claim C3: `get` returns the stored value unless the entry is absent or
expired; once `now > expires_at` the entry is not returned and is deleted
from the map by the lookup (other keys untouched); absence and expiry are
both reported as `none` — there is no exception path. -/
theorem cache_get_spec :
    ∀ (α : Type) (c : MemoryCache α) (key : String) (now : ℚ),
      (c key = none → c.get key now = (none, c))
      ∧ (∀ e, c key = some e → e.expires_at < now →
          (c.get key now).1 = none ∧ (c.get key now).2 key = none
          ∧ ∀ k, k ≠ key → (c.get key now).2 k = c k)
      ∧ ∀ e, c key = some e → ¬ e.expires_at < now →
          c.get key now = (some e.data, c) := by
  intro α c key now
  refine ⟨?_, ?_, ?_⟩
  · intro h
    simp [MemoryCache.get, h]
  · intro e he hex
    have hg : c.get key now = (none, fun k => if k = key then none else c k) := by
      simp [MemoryCache.get, he, CacheEntry.is_expired, hex]
    rw [hg]
    refine ⟨rfl, by simp, ?_⟩
    intro k hk
    simp [hk]
  · intro e he hex
    simp [MemoryCache.get, he, CacheEntry.is_expired, hex]

theorem cache_get_spec_witness :
    MemoryCache.get (MemoryCache.empty : MemoryCache ℕ) "a" 0
      = (none, MemoryCache.empty) :=
  (cache_get_spec ℕ MemoryCache.empty "a" 0).1 rfl

/-- Claim C9, counterexample: `set` accepts `ttl_seconds = 0` (no validation
in the source), and the stored entry then has `expires_at = timestamp`,
violating the claimed invariant `expiresAt > createdAt`. -/
theorem cache_entry_invariant_counterexample :
    (MemoryCache.set (MemoryCache.empty : MemoryCache ℕ) "k" 7 0 0) "k"
      = some ⟨7, 0, 0⟩
    ∧ ¬ ((⟨7, 0, 0⟩ : CacheEntry ℕ).expires_at
          > (⟨7, 0, 0⟩ : CacheEntry ℕ).timestamp) := by
  constructor
  · simp [MemoryCache.set, MemoryCache.empty]
  · simp

/-- Claim C9 as amended: every entry stored by a `set` call with
`ttl_seconds > 0` satisfies `expires_at > timestamp`, and the invariant
holds for the entry's whole lifetime in the map: it is preserved by `set`
(with positive ttl), `get`, `invalidate` and `clear`, which never mutate an
entry's fields. -/
theorem cache_entry_invariant_amended :
    ∀ (α : Type) (c : MemoryCache α),
      (∀ (k : String) (v : α) (ttl : ℤ) (now : ℚ), 0 < ttl → CacheWF c →
        CacheWF (c.set k v ttl now))
      ∧ (∀ (k : String) (now : ℚ), CacheWF c → CacheWF (c.get k now).2)
      ∧ (∀ k : String, CacheWF c → CacheWF (c.invalidate k))
      ∧ (CacheWF c → CacheWF c.clear) := by
  intro α c
  refine ⟨?_, ?_, ?_, ?_⟩
  · intro k v ttl now httl hwf k' e' he'
    by_cases hk : k' = k
    · simp [MemoryCache.set, hk] at he'
      subst he'
      have : (0 : ℚ) < (ttl : ℚ) := by exact_mod_cast httl
      simp
      linarith
    · simp [MemoryCache.set, hk] at he'
      exact hwf k' e' he'
  · intro k now hwf k' e' he'
    rcases hc : c k with _ | e
    · simp [MemoryCache.get, hc] at he'
      exact hwf k' e' he'
    · by_cases hex : e.is_expired now
      · have hg : (c.get k now).2 = fun x => if x = k then none else c x := by
          simp [MemoryCache.get, hc, hex]
        rw [hg] at he'
        by_cases hk : k' = k
        · simp [hk] at he'
        · simp [hk] at he'
          exact hwf k' e' he'
      · have hg : (c.get k now).2 = c := by
          simp [MemoryCache.get, hc, hex]
        rw [hg] at he'
        exact hwf k' e' he'
  · intro k hwf k' e' he'
    by_cases hk : k' = k
    · simp [MemoryCache.invalidate, hk] at he'
    · simp [MemoryCache.invalidate, hk] at he'
      exact hwf k' e' he'
  · intro _ k' e' he'
    simp [MemoryCache.clear] at he'

theorem cache_entry_invariant_amended_witness :
    CacheWF (MemoryCache.set (MemoryCache.empty : MemoryCache ℕ) "a" 1 5 0) :=
  (cache_entry_invariant_amended ℕ MemoryCache.empty).1 "a" 1 5 0 (by decide)
    (fun k e h => by simp [MemoryCache.empty] at h)

/-! ## Theorems: WebSocket connection manager -/

/-- Helper: a session outside the active set is not delivered to by a
`broadcast` call and stays outside the active set. -/
theorem ConnectionManager.broadcast_not_active (m : ConnectionManager)
    (t : ℚ) (ok : ℕ → Bool) (s : ℕ) (hs : s ∉ m.active_connections) :
    s ∉ (m.broadcast t ok).1.active_connections ∧ s ∉ (m.broadcast t ok).2 := by
  unfold ConnectionManager.broadcast
  split
  · exact ⟨hs, by simp⟩
  · split
    · exact ⟨hs, by simp⟩
    · constructor
      · intro hmem
        rw [Finset.mem_sdiff] at hmem
        exact hs hmem.1
      · intro hmem
        exact hs (Finset.mem_filter.mp hmem).1

/-- Helper: the set difference performed after the sweep equals the set of
sessions whose send succeeded. -/
theorem ConnectionManager.sdiff_failed_eq_filter_ok (a : Finset ℕ)
    (ok : ℕ → Bool) :
    a \ a.filter (fun s => ok s = false) = a.filter (fun s => ok s = true) := by
  ext x
  simp [Finset.mem_sdiff, Finset.mem_filter]
  tauto

/-- Claim C4: `broadcast` is rate-limited — it returns without sending
anything (state unchanged, nothing delivered) when called less than
`min_notification_interval` after the recorded previous broadcast; and in
the scenario of one active session and two `notify_data_change` calls less
than 1 second apart (the first one past the rate limit and succeeding),
exactly one message is delivered: the first call delivers to the session
and the second delivers to nobody. -/
theorem broadcast_rate_limited :
    (∀ (m : ConnectionManager) (now : ℚ) (sendOk : ℕ → Bool),
        now - m.last_notification_time < m.min_notification_interval →
        m.broadcast now sendOk = (m, ∅))
    ∧ ∀ (s : ℕ) (t0 t1 t2 : ℚ) (ok1 ok2 : ℕ → Bool),
        1 ≤ t1 - t0 → ok1 s = true → t2 - t1 < 1 →
        ((ConnectionManager.mk {s} t0 1).notify_data_change t1 ok1).2 = {s}
        ∧ (((ConnectionManager.mk {s} t0 1).notify_data_change t1 ok1).1.notify_data_change
            t2 ok2).2 = ∅ := by
  constructor
  · intro m now sendOk h
    simp [ConnectionManager.broadcast, h]
  · intro s t0 t1 t2 ok1 ok2 h1 hok h2
    have hr1 : ¬ (t1 - t0 < (1 : ℚ)) := not_lt.mpr h1
    have hb1 : (ConnectionManager.mk {s} t0 1).notify_data_change t1 ok1
        = (ConnectionManager.mk {s} t1 1, {s}) := by
      simp [ConnectionManager.notify_data_change, ConnectionManager.broadcast,
        hr1, Finset.filter_singleton, hok]
    rw [hb1]
    refine ⟨rfl, ?_⟩
    simp [ConnectionManager.notify_data_change, ConnectionManager.broadcast, h2]

theorem broadcast_rate_limited_witness :
    ((ConnectionManager.mk {0} 0 1).notify_data_change 1 (fun _ => true)).2 = {0}
    ∧ (((ConnectionManager.mk {0} 0 1).notify_data_change 1 (fun _ => true)).1.notify_data_change
        1 (fun _ => true)).2 = ∅ :=
  broadcast_rate_limited.2 0 0 1 1 (fun _ => true) (fun _ => true)
    (by simp) rfl (by simp)

/-- Claim C5: when `broadcast` executes a send (rate limit passed, active
set nonempty), it attempts delivery to every session in the snapshot of the
active set: exactly the sessions whose send succeeds receive the message
(so one session's failure never aborts delivery to the others), the failed
sessions are removed from the active set after the sweep, and a session
outside the active set is absent from (never delivered to by) every
subsequent broadcast. -/
theorem broadcast_failure_isolation :
    (∀ (m : ConnectionManager) (now : ℚ) (sendOk : ℕ → Bool),
      ¬ (now - m.last_notification_time < m.min_notification_interval) →
      m.active_connections ≠ ∅ →
      ((m.broadcast now sendOk).2
          = m.active_connections.filter (fun s => sendOk s = true))
      ∧ (∀ s ∈ m.active_connections, sendOk s = true →
          s ∈ (m.broadcast now sendOk).2)
      ∧ ((m.broadcast now sendOk).1.active_connections
          = m.active_connections.filter (fun s => sendOk s = true))
      ∧ (∀ s ∈ m.active_connections, sendOk s = false →
          s ∉ (m.broadcast now sendOk).1.active_connections))
    ∧ ∀ (m : ConnectionManager) (s : ℕ) (calls : List (ℚ × (ℕ → Bool))),
        s ∉ m.active_connections →
        (∀ d ∈ (m.broadcasts calls).2, s ∉ d)
        ∧ s ∉ (m.broadcasts calls).1.active_connections := by
  constructor
  · intro m now sendOk hrate hne
    have hb : m.broadcast now sendOk
        = ({ m with
              last_notification_time := now,
              active_connections :=
                m.active_connections \
                  m.active_connections.filter (fun s => sendOk s = false) },
            m.active_connections.filter (fun s => sendOk s = true)) := by
      simp [ConnectionManager.broadcast, hrate, hne]
    rw [hb]
    refine ⟨rfl, ?_, ?_, ?_⟩
    · intro s hsm hsok
      exact Finset.mem_filter.mpr ⟨hsm, hsok⟩
    · exact ConnectionManager.sdiff_failed_eq_filter_ok _ _
    · intro s hsm hsfail
      rw [ConnectionManager.sdiff_failed_eq_filter_ok]
      intro hmem
      rw [Finset.mem_filter] at hmem
      rw [hsfail] at hmem
      exact absurd hmem.2 (by simp)
  · intro m s calls hs
    induction calls generalizing m with
    | nil =>
      refine ⟨?_, ?_⟩
      · intro d hd
        simp [ConnectionManager.broadcasts] at hd
      · simpa [ConnectionManager.broadcasts] using hs
    | cons c rest ih =>
      obtain ⟨t, ok⟩ := c
      have h1 := ConnectionManager.broadcast_not_active m t ok s hs
      have h2 := ih (m.broadcast t ok).1 h1.1
      refine ⟨?_, ?_⟩
      · intro d hd
        simp only [ConnectionManager.broadcasts, List.mem_cons] at hd
        rcases hd with hd | hd
        · rw [hd]
          exact h1.2
        · exact h2.1 d hd
      · simpa [ConnectionManager.broadcasts] using h2.2
  
theorem broadcast_failure_isolation_witness :
    0 ∈ ((ConnectionManager.mk {0} 0 1).broadcast 1 (fun _ => true)).2
    ∧ 1 ∉ ((ConnectionManager.mk {0} 0 1).broadcasts [(1, fun _ => true)]).1.active_connections :=
  ⟨(broadcast_failure_isolation.1 ⟨{0}, 0, 1⟩ 1 (fun _ => true)
      (by simp) (by simp)).2.1 0 (by simp) rfl,
    (broadcast_failure_isolation.2 ⟨{0}, 0, 1⟩ 1 [(1, fun _ => true)]
      (by simp)).2⟩

/-- Claim C8, counterexample: a `broadcast` call on a manager whose only
session's send fails delivers no message, yet advances the rate-limit
timestamp from `0` to the call time `1` — the source sets
`last_notification_time` before attempting any send, so unsuccessful sends
also update it. -/
theorem broadcast_timestamp_counterexample :
    ((ConnectionManager.mk {0} 0 1).broadcast 1 (fun _ => false)).2 = ∅
    ∧ ((ConnectionManager.mk {0} 0 1).broadcast 1
        (fun _ => false)).1.last_notification_time = 1
    ∧ (1 : ℚ) ≠ 0 := by
  refine ⟨?_, ?_, by norm_num⟩ <;>
    norm_num [ConnectionManager.broadcast, Finset.filter_singleton]

/-- Claim C8 as amended: a rate-limited call and a call with an empty
active set leave the manager (its rate-limit timestamp included) unchanged;
whenever the send sweep executes, the timestamp is set to the call time —
regardless of whether any session's send succeeds. -/
theorem broadcast_timestamp_amended :
    ∀ (m : ConnectionManager) (now : ℚ) (sendOk : ℕ → Bool),
      (now - m.last_notification_time < m.min_notification_interval →
        (m.broadcast now sendOk).1 = m)
      ∧ (m.active_connections = ∅ → (m.broadcast now sendOk).1 = m)
      ∧ (¬ (now - m.last_notification_time < m.min_notification_interval) →
          m.active_connections ≠ ∅ →
          (m.broadcast now sendOk).1.last_notification_time = now) := by
  intro m now sendOk
  refine ⟨?_, ?_, ?_⟩
  · intro h
    simp [ConnectionManager.broadcast, h]
  · intro h
    unfold ConnectionManager.broadcast
    split_ifs <;> rfl
  · intro h1 h2
    simp [ConnectionManager.broadcast, h1, h2]

theorem broadcast_timestamp_amended_witness :
    ((ConnectionManager.mk {0} 0 1).broadcast 1
      (fun _ => false)).1.last_notification_time = 1 :=
  (broadcast_timestamp_amended ⟨{0}, 0, 1⟩ 1 (fun _ => false)).2.2
    (by simp) (by simp)

/-! ## Theorems: backup/restore coordinator -/

/-- Claim C1: `should_backup_now` is `true` iff `last_data_change_time` is
set and (`last_backup_time` is unset, or the interval has elapsed since the
last backup and the data change is newer than it); in particular it is
`false` when `last_data_change_time` is unset, `true` right after
`mark_data_change` when no backup has ever occurred, and `false` right
after a successful `backup_database (force := true)` call with no further
data changes (every recorded change at or before the backup time). -/
theorem should_backup_now_spec :
    ∀ (s : PersistentSQLiteDB) (now : ℚ),
      (s.should_backup_now now = true ↔
        ∃ dc, s.last_data_change_time = some dc ∧
          (s.last_backup_time = none ∨
            ∃ lb, s.last_backup_time = some lb ∧
              s.backup_interval_hours ≤ now - lb ∧ lb < dc))
      ∧ (s.last_data_change_time = none → s.should_backup_now now = false)
      ∧ (∀ t : ℚ, s.last_backup_time = none →
          (s.mark_data_change t).should_backup_now now = true)
      ∧ ∀ (tEntry : ℚ) (up : Bool),
          (s.backup_database tEntry now true up).ok = true →
          (∀ dc, s.last_data_change_time = some dc → dc ≤ now) →
          (s.backup_database tEntry now true up).state.should_backup_now now
            = false := by
  intro s now
  refine ⟨?_, ?_, ?_, ?_⟩
  · cases hdc : s.last_data_change_time with
    | none => simp [PersistentSQLiteDB.should_backup_now, hdc]
    | some dc =>
      cases hlb : s.last_backup_time with
      | none => simp [PersistentSQLiteDB.should_backup_now, hdc, hlb]
      | some lb => simp [PersistentSQLiteDB.should_backup_now, hdc, hlb]
  · intro h
    simp [PersistentSQLiteDB.should_backup_now, h]
  · intro t hlb
    simp [PersistentSQLiteDB.should_backup_now, PersistentSQLiteDB.mark_data_change, hlb]
  · intro tEntry up hok hdcle
    have hres : s.backup_database tEntry now true up
        = ⟨true, { s with last_backup_time := some now }, true⟩ := by
      cases hb : s.board with
      | false => simp [PersistentSQLiteDB.backup_database, hb] at hok
      | true =>
        cases he : s.db_exists with
        | false => simp [PersistentSQLiteDB.backup_database, hb, he] at hok
        | true =>
          cases hup : up with
          | false => simp [PersistentSQLiteDB.backup_database, hb, he, hup] at hok
          | true => simp [PersistentSQLiteDB.backup_database, hb, he, hup]
    rw [hres]
    cases hdc : s.last_data_change_time with
    | none => simp [PersistentSQLiteDB.should_backup_now, hdc]
    | some dc =>
      have hle : dc ≤ now := hdcle dc hdc
      have hngt : ¬ (now < dc) := not_lt.mpr hle
      simp [PersistentSQLiteDB.should_backup_now, hdc, hngt]

theorem should_backup_now_spec_witness :
    (PersistentSQLiteDB.mark_data_change
        ⟨1, none, none, true, true⟩ 2).should_backup_now 2 = true :=
  (should_backup_now_spec ⟨1, none, none, true, true⟩ 2).2.2.1 2 rfl

/-- Claim C6: `backup_database force` returns `false` with no I/O when
`force` is unset and `should_backup_now` is false; returns `false` when the
board is unavailable or the local snapshot file does not exist; otherwise
it reaches the upload, and on success records `last_backup_time` and
returns `true`, while on an upload error it returns `false` (the exception
is caught, never propagated). -/
theorem backup_database_spec :
    ∀ (s : PersistentSQLiteDB) (now nowAfter : ℚ) (up force : Bool),
      (force = false → s.should_backup_now now = false →
        s.backup_database now nowAfter force up = ⟨false, s, false⟩)
      ∧ ((force = true ∨ s.should_backup_now now = true) → s.board = false →
          s.backup_database now nowAfter force up = ⟨false, s, false⟩)
      ∧ ((force = true ∨ s.should_backup_now now = true) → s.board = true →
          s.db_exists = false →
          s.backup_database now nowAfter force up = ⟨false, s, false⟩)
      ∧ ((force = true ∨ s.should_backup_now now = true) → s.board = true →
          s.db_exists = true → up = true →
          s.backup_database now nowAfter force up
            = ⟨true, { s with last_backup_time := some nowAfter }, true⟩)
      ∧ ((force = true ∨ s.should_backup_now now = true) → s.board = true →
          s.db_exists = true → up = false →
          s.backup_database now nowAfter force up = ⟨false, s, true⟩) := by
  intro s now nowAfter up force
  have hguard : ∀ hf : force = true ∨ s.should_backup_now now = true,
      (!force && !(s.should_backup_now now)) = false := by
    intro hf
    rcases hf with h | h <;> simp [h]
  refine ⟨?_, ?_, ?_, ?_, ?_⟩
  · intro hf hs
    simp [PersistentSQLiteDB.backup_database, hf, hs]
  · intro hf hb
    simp [PersistentSQLiteDB.backup_database, hguard hf, hb]
  · intro hf hb he
    simp [PersistentSQLiteDB.backup_database, hguard hf, hb, he]
  · intro hf hb he hup
    simp [PersistentSQLiteDB.backup_database, hguard hf, hb, he, hup]
  · intro hf hb he hup
    simp [PersistentSQLiteDB.backup_database, hguard hf, hb, he, hup]

theorem backup_database_spec_witness :
    PersistentSQLiteDB.backup_database ⟨1, none, none, true, true⟩ 0 0 false true
      = ⟨false, ⟨1, none, none, true, true⟩, false⟩ :=
  (backup_database_spec ⟨1, none, none, true, true⟩ 0 0 true false).1 rfl rfl

/-- Claim C10: on every path where `backup_database` returns `false` the
whole state — `last_backup_time` and `last_data_change_time` included — is
unchanged; `last_data_change_time` is never touched; and `last_backup_time`
differs from before only when the call returned `true`. -/
theorem backup_database_frame :
    ∀ (s : PersistentSQLiteDB) (now nowAfter : ℚ) (force up : Bool),
      ((s.backup_database now nowAfter force up).ok = false →
        (s.backup_database now nowAfter force up).state = s)
      ∧ (s.backup_database now nowAfter force up).state.last_data_change_time
          = s.last_data_change_time
      ∧ ((s.backup_database now nowAfter force up).state.last_backup_time
            ≠ s.last_backup_time →
          (s.backup_database now nowAfter force up).ok = true) := by
  intro s now nowAfter force up
  unfold PersistentSQLiteDB.backup_database
  split
  · exact ⟨fun _ => rfl, rfl, fun h => absurd rfl h⟩
  · split
    · exact ⟨fun _ => rfl, rfl, fun h => absurd rfl h⟩
    · split
      · exact ⟨fun _ => rfl, rfl, fun h => absurd rfl h⟩
      · split
        · exact ⟨fun h => by simp at h, rfl, fun _ => rfl⟩
        · exact ⟨fun _ => rfl, rfl, fun h => absurd rfl h⟩

theorem backup_database_frame_witness :
    (PersistentSQLiteDB.backup_database
        ⟨1, none, none, true, true⟩ 0 0 false true).state
      = ⟨1, none, none, true, true⟩ :=
  (backup_database_frame ⟨1, none, none, true, true⟩ 0 0 false true).1 rfl

/-- Claim C7: `restore_database` returns `true` exactly when the board is
available, the parent-directory creation succeeds, the download returns a
nonempty file list and the copy succeeds; it returns `false` on every
failure (board unavailable, raised download or copy exception, empty
download) — the function is total, so no exception reaches the caller. -/
theorem restore_database_spec :
    ∀ (s : PersistentSQLiteDB) (mkdir_ok : Bool)
      (download : Option (List String)) (copy_ok : Bool),
      (s.restore_database mkdir_ok download copy_ok = true ↔
        s.board = true ∧ mkdir_ok = true ∧
          (∃ files, download = some files ∧ files ≠ []) ∧ copy_ok = true)
      ∧ (s.board = false → s.restore_database mkdir_ok download copy_ok = false)
      ∧ (download = none → s.restore_database mkdir_ok download copy_ok = false)
      ∧ (download = some [] →
          s.restore_database mkdir_ok download copy_ok = false) := by
  intro s mkdir_ok download copy_ok
  refine ⟨?_, ?_, ?_, ?_⟩
  · cases hb : s.board with
    | false => simp [PersistentSQLiteDB.restore_database, hb]
    | true =>
      cases hm : mkdir_ok with
      | false => simp [PersistentSQLiteDB.restore_database, hb, hm]
      | true =>
        cases hd : download with
        | none => simp [PersistentSQLiteDB.restore_database, hb, hm, hd]
        | some files =>
          cases hfe : files.isEmpty with
          | true =>
            have : files = [] := List.isEmpty_iff.mp hfe
            simp [PersistentSQLiteDB.restore_database, hb, hm, hd, hfe, this]
          | false =>
            have : files ≠ [] := by
              intro hnil
              rw [hnil] at hfe
              simp at hfe
            cases hc : copy_ok with
            | false => simp [PersistentSQLiteDB.restore_database, hb, hm, hd, hfe, hc]
            | true => simp [PersistentSQLiteDB.restore_database, hb, hm, hd, hfe, hc, this]
  · intro hb
    simp [PersistentSQLiteDB.restore_database, hb]
  · intro hd
    cases hb : s.board with
    | false => simp [PersistentSQLiteDB.restore_database, hb]
    | true => simp [PersistentSQLiteDB.restore_database, hb, hd]
  · intro hd
    cases hb : s.board with
    | false => simp [PersistentSQLiteDB.restore_database, hb]
    | true =>
      cases hm : mkdir_ok with
      | false => simp [PersistentSQLiteDB.restore_database, hb, hm]
      | true => simp [PersistentSQLiteDB.restore_database, hb, hm, hd]

theorem restore_database_spec_witness :
    PersistentSQLiteDB.restore_database ⟨1, none, none, false, true⟩ true
      (some ["database.db"]) true = false :=
  (restore_database_spec ⟨1, none, none, false, true⟩ true
      (some ["database.db"]) true).2.1 rfl
